import Mathlib

/-!
Verification of the primitiv device memory pool (`src/primitiv/core/memory_pool.cc`)
and the CPU device kernels (`src/primitiv/cpu_device.cc`).

The C++ state is embedded as explicit functional state passing:
* raw pointers are modelled as natural numbers;
* the injected allocator callback is modelled as a pre-planned list of
  responses (`alloc_plan`), one entry consumed per callback invocation,
  where `none` models the callback throwing (out of memory);
* the injected deleter callback is modelled by appending the deleted
  pointer to an event log (`deleted`);
* each `reserved_[k]` bucket (a C++ `std::vector` used as a stack) is a
  `List` whose head is the most recently pushed pointer (the back of the vector);
* `supplied_` (a C++ `std::unordered_map<void*, std::uint64_t>`) is an
  association list from pointer to bucket exponent.
-/

namespace Primitiv

/-- Error kinds raised by `MemoryPool` (`PRIMITIV_THROW_ERROR` sites in
`memory_pool.cc`), following the error taxonomy of the spec. -/
inductive PoolError where
  | invalidSize
  | allocationFailure
  | unknownHandle
  deriving DecidableEq, Repr

/-- State of a `MemoryPool`, together with the modelled environment:
the plan of allocator-callback responses and the log of deleter calls. -/
structure MemoryPool where
  minimum_size : Nat
  reserved : List (List Nat)
  supplied : List (Nat × Nat)
  alloc_plan : List (Option Nat)
  deleted : List Nat
  deriving DecidableEq, Repr

/-- Lookup in the `supplied_` map (`supplied_.find(ptr)`):
returns the bucket exponent recorded for `ptr`, if present. -/
def lookupShift (ptr : Nat) : List (Nat × Nat) → Option Nat
  | [] => none
  | (q, sh) :: rest => if q = ptr then some sh else lookupShift ptr rest

/-- Removal of the entry found for `ptr` (`supplied_.erase(it)`):
removes the first entry whose key is `ptr`. -/
def eraseKey (ptr : Nat) : List (Nat × Nat) → List (Nat × Nat)
  | [] => []
  | (q, sh) :: rest => if q = ptr then rest else (q, sh) :: eraseKey ptr rest

/-- Insertion into the `supplied_` map (`supplied_.emplace(ptr, shift)`):
inserts only when the key is not already present, as `emplace` does. -/
def emplaceSupplied (ptr shift : Nat) (l : List (Nat × Nat)) : List (Nat × Nat) :=
  if (lookupShift ptr l).isSome then l else (ptr, shift) :: l

/-- Search for the first exponent `k0 ≤ k < k0 + fuel` with `size ≤ 2 ^ k`;
returns `k0 + fuel` when there is none. -/
def shiftsFrom (size : Nat) : Nat → Nat → Nat
  | 0, k => k
  | fuel + 1, k => if size ≤ 2 ^ k then k else shiftsFrom size fuel (k + 1)

/-- Modelled from the spec: `numeric_utils::calculate_shifts` is not under
`src/`; the spec states the request "is then rounded up to the next power of
two (`shift = ceil(log2(size))`)". This computes the least `k ≤ 63` with
`size ≤ 2 ^ k`, and any value `> 63` (here 64) makes `allocate` reject the
request, matching `ceil(log2(size)) > 63`. -/
def calculate_shifts (size : Nat) : Nat :=
  shiftsFrom size 64 0

/-- Translation of `MemoryPool::release_reserved_blocks`: drains every
bucket, invoking the deleter on each pointer from the back (stack head)
of each bucket, buckets in index order. -/
def MemoryPool.release_reserved_blocks (s : MemoryPool) : MemoryPool :=
  { s with
    reserved := s.reserved.map (fun _ => [])
    deleted := s.deleted ++ s.reserved.flatten }

/-- Consumption of one planned allocator-callback response, modelling one
invocation of `allocator_(mem_size)`; an exhausted plan behaves as a
throwing allocator. -/
def MemoryPool.callAllocator (s : MemoryPool) : MemoryPool × Option Nat :=
  match s.alloc_plan with
  | [] => (s, none)
  | r :: rest => ({ s with alloc_plan := rest }, r)

/-- Translation of `MemoryPool::allocate`. The returned pair is the pool
state after the call and the outcome: `.ok (p?, m)` gives the issued block
(`none` for the `size == 0` shortcut) and the value stored through
`allocated_size`; `.error e` models a thrown exception. -/
def MemoryPool.allocate (s : MemoryPool) (size : Nat) :
    MemoryPool × Except PoolError (Option Nat × Nat) :=
  if size = 0 then (s, .ok (none, 0))
  else
    let size := if size < s.minimum_size then s.minimum_size else size
    let shift := calculate_shifts size
    if 63 < shift then (s, .error .invalidSize)
    else
      let mem_size := 2 ^ shift
      match s.reserved.getD shift [] with
      | [] =>
        -- Allocates a new block.
        let (s1, r1) := s.callAllocator
        match r1 with
        | some ptr =>
          ({ s1 with supplied := emplaceSupplied ptr shift s1.supplied },
           .ok (some ptr, mem_size))
        | none =>
          -- Maybe out-of-memory: release other blocks and try again.
          let s2 := s1.release_reserved_blocks
          let (s3, r2) := s2.callAllocator
          match r2 with
          | some ptr =>
            ({ s3 with supplied := emplaceSupplied ptr shift s3.supplied },
             .ok (some ptr, mem_size))
          | none => (s3, .error .allocationFailure)
      | ptr :: rest =>
        -- Returns an existing block.
        ({ s with
            reserved := s.reserved.set shift rest
            supplied := emplaceSupplied ptr shift s.supplied },
         .ok (some ptr, mem_size))

/-- Translation of `MemoryPool::free`: unknown pointers raise an error,
known pointers move from `supplied_` to the recorded bucket. -/
def MemoryPool.free (s : MemoryPool) (ptr : Nat) :
    MemoryPool × Except PoolError Unit :=
  match lookupShift ptr s.supplied with
  | none => (s, .error .unknownHandle)
  | some shift =>
    ({ s with
        reserved := s.reserved.set shift (ptr :: s.reserved.getD shift [])
        supplied := eraseKey ptr s.supplied },
     .ok ())

/-- Every pointer currently tracked by the pool: keys of `supplied_`
followed by the contents of all `reserved_` buckets. -/
def MemoryPool.tracked (s : MemoryPool) : List Nat :=
  s.supplied.map Prod.fst ++ s.reserved.flatten

/-- Well-formedness of a pool state: 64 buckets, no pointer tracked twice
(hence never both supplied and reserved, and never in two buckets), and
every recorded exponent indexes a real bucket. -/
def MemoryPool.WF (s : MemoryPool) : Prop :=
  s.reserved.length = 64 ∧ s.tracked.Nodup ∧ ∀ kv ∈ s.supplied, kv.2 < 64

/-- Freshness of the modelled allocator: every pointer the allocator plan
may hand out is not already tracked by the pool. -/
def MemoryPool.FreshPlan (s : MemoryPool) : Prop :=
  ∀ p ∈ s.alloc_plan.filterMap id, p ∉ s.tracked

/-!
CPU device kernels (`cpu_device.cc`).  Tensor element data is a flat
column-major list; the scalar type is a parameter `α` (instantiated with
`ℚ` in concrete computations), so that the kernel index arithmetic and
accumulation order are captured exactly, independent of machine float
rounding.  Out-of-range reads use `List.getD _ _ 0`; the theorems speak
about in-range indices only.
-/

/-- Modelled from the spec: the `Shape` class is not under `src/`; per the
spec it is an ordered sequence of non-batch dimension sizes plus a batch
multiplicity, with `size() = product(dims) × batch_size` and `dim(i)`
reading the `i`-th dimension (trailing dimensions are implicitly 1). -/
structure Shape where
  dims : List Nat
  batch_size : Nat
  deriving DecidableEq, Repr

/-- Modelled from the spec: number of elements of a shape, including all
batch slices. -/
def Shape.size (s : Shape) : Nat :=
  s.dims.prod * s.batch_size

/-- Modelled from the spec: the `i`-th dimension, implicitly 1 past the
explicit dimensions. -/
def Shape.dim (s : Shape) (i : Nat) : Nat :=
  s.dims.getD i 1

/-- Device-side tensor: a shape plus its flat contents. -/
structure Tensor (α : Type) where
  shape : Shape
  data : List α
  deriving DecidableEq, Repr

/-- Error kinds raised by `CPUDevice` kernels (`throw std::runtime_error`
sites in `cpu_device.cc`), following the error taxonomy of the spec. -/
inductive DevError where
  | shapeMismatch
  | dataSizeMismatch
  | unknownHandle
  deriving DecidableEq, Repr

/-- Shared translation of the four binary elementwise kernels
(`CPUDevice::add/subtract/multiply/divide` on two tensors), whose bodies
are identical up to the scalar operation `f`: the dims-equality guard,
then the three-way batch dispatch, else the shape-mismatch error. -/
def binaryOp [Zero α] (f : α → α → α) (a b : Tensor α) : Except DevError (Tensor α) :=
  let sa := a.shape
  let sb := b.shape
  if sa.dims = sb.dims then
    if sa.batch_size = sb.batch_size then
      -- ret = a ∘ b
      .ok { shape := sa,
            data := (List.range sa.size).map fun i =>
              f (a.data.getD i 0) (b.data.getD i 0) }
    else if sa.batch_size = 1 then
      -- ret = batch_broadcast(a) ∘ b
      let ms := sa.size
      let bs := sb.batch_size
      .ok { shape := sb,
            data := ((List.range bs).map fun k =>
              (List.range ms).map fun i =>
                f (a.data.getD i 0) (b.data.getD (k * ms + i) 0)).flatten }
    else if sb.batch_size = 1 then
      -- ret = a ∘ batch_broadcast(b)
      let ms := sb.size
      let bs := sa.batch_size
      .ok { shape := sa,
            data := ((List.range bs).map fun k =>
              (List.range ms).map fun i =>
                f (a.data.getD (k * ms + i) 0) (b.data.getD i 0)).flatten }
    else .error .shapeMismatch
  else .error .shapeMismatch

/-- Translation of `CPUDevice::add(Tensor, Tensor)`. -/
def CPUDevice.add [Zero α] [Add α] (a b : Tensor α) : Except DevError (Tensor α) :=
  binaryOp (· + ·) a b

/-- Translation of `CPUDevice::subtract(Tensor, Tensor)`. -/
def CPUDevice.subtract [Zero α] [Sub α] (a b : Tensor α) : Except DevError (Tensor α) :=
  binaryOp (· - ·) a b

/-- Translation of `CPUDevice::multiply(Tensor, Tensor)`. -/
def CPUDevice.multiply [Zero α] [Mul α] (a b : Tensor α) : Except DevError (Tensor α) :=
  binaryOp (· * ·) a b

/-- Translation of `CPUDevice::divide(Tensor, Tensor)`. -/
def CPUDevice.divide [Zero α] [Div α] (a b : Tensor α) : Except DevError (Tensor α) :=
  binaryOp (· / ·) a b

/-- One output batch slice of `CPUDevice::dot`: the triple-nested loop
filling `dest[i + k*d1]` with a scalar accumulator over `j` in increasing
order, reading the given slices through `va`/`vb`. -/
def dotSlice [Zero α] [Add α] [Mul α] (va vb : Nat → α) (d1 d2 d3 : Nat) : List α :=
  ((List.range d3).map fun k =>
    (List.range d1).map fun i =>
      (List.range d2).foldl (fun tmp j => tmp + va (i + j * d1) * vb (j + k * d2)) 0).flatten

/-- Translation of `CPUDevice::dot`: the rank/inner-dimension guard, the
three-way batch dispatch with per-slice pointer shifts, else the
shape-mismatch error. -/
def CPUDevice.dot [Zero α] [Add α] [Mul α] (a b : Tensor α) :
    Except DevError (Tensor α) :=
  let sa := a.shape
  let sb := b.shape
  let d1 := sa.dim 0
  let d2 := sa.dim 1
  let d3 := sb.dim 1
  if sa.dims.length ≤ 2 ∧ sb.dims.length ≤ 2 ∧ d2 = sb.dim 0 then
    if sa.batch_size = sb.batch_size then
      -- ret = a . b
      let bs := sa.batch_size
      .ok { shape := ⟨[d1, d3], bs⟩,
            data := ((List.range bs).map fun bi =>
              dotSlice (fun t => a.data.getD (bi * (d1 * d2) + t) 0)
                       (fun t => b.data.getD (bi * (d2 * d3) + t) 0) d1 d2 d3).flatten }
    else if sa.batch_size = 1 then
      -- ret = batch_broadcast(a) . b
      let bs := sb.batch_size
      .ok { shape := ⟨[d1, d3], bs⟩,
            data := ((List.range bs).map fun bi =>
              dotSlice (fun t => a.data.getD t 0)
                       (fun t => b.data.getD (bi * (d2 * d3) + t) 0) d1 d2 d3).flatten }
    else if sb.batch_size = 1 then
      -- ret = a . batch_broadcast(b)
      let bs := sa.batch_size
      .ok { shape := ⟨[d1, d3], bs⟩,
            data := ((List.range bs).map fun bi =>
              dotSlice (fun t => a.data.getD (bi * (d1 * d2) + t) 0)
                       (fun t => b.data.getD t 0) d1 d2 d3).flatten }
    else .error .shapeMismatch
  else .error .shapeMismatch

/-- Translation of `CPUDevice::add_gradient`: in-place accumulation into
`a`, returned here as the new value of `a`; the dims-equality guard, the
equal-batch elementwise case, the batch-reduce case (`a += batch_sum(b)`,
summed in increasing batch order starting from the stored value), the
broadcast case (`a += batch_broadcast(b)`), else the shape-mismatch error. -/
def CPUDevice.add_gradient [Zero α] [Add α] (a b : Tensor α) :
    Except DevError (Tensor α) :=
  let sa := a.shape
  let sb := b.shape
  if sa.dims = sb.dims then
    if sa.batch_size = sb.batch_size then
      -- a += b
      .ok { a with data := (List.range sa.size).map fun i =>
              a.data.getD i 0 + b.data.getD i 0 }
    else if sa.batch_size = 1 then
      -- a += batch_sum(b)
      let ms := sa.size
      let bs := sb.batch_size
      .ok { a with data := (List.range ms).map (fun i =>
              (List.range bs).foldl (fun acc k => acc + b.data.getD (k * ms + i) 0)
                (a.data.getD i 0)) }
    else if sb.batch_size = 1 then
      -- a += batch_broadcast(b)
      let ms := sb.size
      let bs := sa.batch_size
      .ok { a with data := ((List.range bs).map fun k =>
              (List.range ms).map fun i =>
                a.data.getD (k * ms + i) 0 + b.data.getD i 0).flatten }
    else .error .shapeMismatch
  else .error .shapeMismatch

/-- Translation of `CPUDevice::random_uniform`, with the device RNG
modelled as the stream `samples` of draws from
`std::uniform_real_distribution(lower, upper)`: element `i` stores the
`i`-th draw, remapped to `upper` when it equals `lower` exactly. -/
def CPUDevice.random_uniform [Zero α] [DecidableEq α]
    (shape : Shape) (samples : List α) (lower upper : α) : Tensor α :=
  { shape := shape,
    data := (List.range shape.size).map fun i =>
      let x := samples.getD i 0
      if x = lower then upper else x }

/-- Memory-tracking state of a `CPUDevice` (this backend calls `malloc`
directly): `blocks_` maps each live pointer to its byte size; `next_ptr`
models `malloc` handing out fresh addresses (the successful-allocation
path — a null return only aborts tensor creation before any tracking). -/
structure CPUDevice where
  blocks : List (Nat × Nat)
  next_ptr : Nat
  deriving DecidableEq, Repr

/-- Translation of `CPUDevice::new_tensor(shape)`: allocates
`sizeof(float) * shape.size()` bytes, records the block in `blocks_`, and
returns the tensor handle (pointer plus uninitialised data). -/
def CPUDevice.new_tensor (d : CPUDevice) (s : Shape) :
    CPUDevice × (Nat × Shape) :=
  let mem_size := 4 * s.size
  let ptr := d.next_ptr
  ({ blocks := (ptr, mem_size) :: d.blocks, next_ptr := ptr + 1 }, (ptr, s))

/-- Translation of the size check in `CPUDevice::reset_tensor(x, values)`:
a value list whose length differs from `shape.size()` raises the
data-size-mismatch error, otherwise the data is copied wholesale. -/
def CPUDevice.reset_tensor_values (s : Shape) (values : List α) :
    Except DevError (List α) :=
  if values.length ≠ s.size then .error .dataSizeMismatch
  else .ok values

/-- Translation of `CPUDevice::new_tensor(shape, values)`: first
`new_tensor(shape)` (which registers the block), then
`reset_tensor(ret, values)`; the device state after the call is returned
in both outcomes, as the C++ exception leaves the mutated `blocks_`. -/
def CPUDevice.new_tensor_values (d : CPUDevice) (s : Shape) (values : List α) :
    CPUDevice × Except DevError (Nat × Shape × List α) :=
  let (d1, t) := d.new_tensor s
  match CPUDevice.reset_tensor_values s values with
  | .ok vs => (d1, .ok (t.1, t.2, vs))
  | .error e => (d1, .error e)

/-- Translation of the `~CPUDevice` teardown check: `some blocks` is the
fatal leak path (every leaked pointer and size is reported, then the
process is aborted); `none` is the clean teardown. -/
def CPUDevice.destructor_report (d : CPUDevice) : Option (List (Nat × Nat)) :=
  if d.blocks.isEmpty then none else some d.blocks

/-! Concrete states used to exercise the theorems below. -/

/-- Example pool: minimum block size 16, no tracked blocks, an allocator
plan with one available pointer. -/
def poolA : MemoryPool :=
  { minimum_size := 16
    reserved := List.replicate 64 []
    supplied := []
    alloc_plan := [some 100]
    deleted := [] }

/-- Example pool in which bucket 3 holds two reserved pointers and the
allocator first fails, then succeeds. -/
def poolB : MemoryPool :=
  { minimum_size := 1
    reserved := (List.replicate 64 []).set 3 [7, 8]
    supplied := []
    alloc_plan := [none, some 42]
    deleted := [] }

/-- Example pool with one supplied pointer recorded at bucket exponent 5. -/
def poolC : MemoryPool :=
  { minimum_size := 16
    reserved := List.replicate 64 []
    supplied := [(100, 5)]
    alloc_plan := []
    deleted := [] }

/-- Example tensor: a 2×3 matrix with a single batch slice. -/
def tensA : Tensor ℚ :=
  { shape := ⟨[2, 3], 1⟩, data := [1, 2, 3, 4, 5, 6] }

/-- Example tensor: a 2×3 matrix with two batch slices. -/
def tensB : Tensor ℚ :=
  { shape := ⟨[2, 3], 2⟩, data := [10, 20, 30, 40, 50, 60, 1, 1, 1, 1, 1, 1] }

/-- Example tensor: a 2×3 matrix with three batch slices. -/
def tensD : Tensor ℚ :=
  { shape := ⟨[2, 3], 3⟩, data := List.replicate 18 0 }

/-- Example tensor: a 3×2 matrix selecting the first two columns. -/
def tensE : Tensor ℚ :=
  { shape := ⟨[3, 2], 1⟩, data := [1, 0, 0, 0, 1, 0] }

/-- Example device tracking no memory blocks. -/
def devA : CPUDevice :=
  { blocks := [], next_ptr := 0 }

/-! Helper lemmas about the exponent search. -/

theorem le_shiftsFrom (size fuel k : Nat) : k ≤ shiftsFrom size fuel k := by
  induction fuel generalizing k with
  | zero => simp [shiftsFrom]
  | succ fuel ih =>
    simp only [shiftsFrom]
    split
    · exact Nat.le_refl k
    · exact Nat.le_trans (Nat.le_succ k) (ih (k + 1))

theorem shiftsFrom_le (size fuel k : Nat) : shiftsFrom size fuel k ≤ k + fuel := by
  induction fuel generalizing k with
  | zero => simp [shiftsFrom]
  | succ fuel ih =>
    simp only [shiftsFrom]
    split
    · omega
    · have := ih (k + 1)
      omega

theorem shiftsFrom_bound (size fuel k : Nat)
    (h : shiftsFrom size fuel k < k + fuel) : size ≤ 2 ^ shiftsFrom size fuel k := by
  induction fuel generalizing k with
  | zero => simp [shiftsFrom] at h
  | succ fuel ih =>
    by_cases hle : size ≤ 2 ^ k
    · simp only [shiftsFrom, if_pos hle]
      exact hle
    · simp only [shiftsFrom, if_neg hle] at h ⊢
      exact ih (k + 1) (by omega)

theorem shiftsFrom_min (size fuel k j : Nat)
    (hj : j < shiftsFrom size fuel k) (hk : k ≤ j) : ¬ size ≤ 2 ^ j := by
  induction fuel generalizing k with
  | zero =>
    simp only [shiftsFrom] at hj
    omega
  | succ fuel ih =>
    by_cases hle : size ≤ 2 ^ k
    · simp only [shiftsFrom, if_pos hle] at hj
      omega
    · simp only [shiftsFrom, if_neg hle] at hj
      rcases Nat.eq_or_lt_of_le hk with rfl | hlt
      · exact hle
      · exact ih (k + 1) hj hlt

theorem calculate_shifts_le (m j : Nat) (h : m ≤ 2 ^ j) : calculate_shifts m ≤ j := by
  by_contra hc
  push_neg at hc
  by_cases hj : j < 64
  · exact shiftsFrom_min m 64 0 j hc (Nat.zero_le j) h
  · have := shiftsFrom_le m 64 0
    unfold calculate_shifts at hc
    omega

theorem le_pow_calculate_shifts (m : Nat) (h : calculate_shifts m ≤ 63) :
    m ≤ 2 ^ calculate_shifts m := by
  have := shiftsFrom_bound m 64 0
  unfold calculate_shifts at h ⊢
  exact this (by omega)

/-! Helper lemmas about the association list for `supplied_`. -/

theorem lookupShift_eq_none (ptr : Nat) (l : List (Nat × Nat)) :
    lookupShift ptr l = none ↔ ptr ∉ l.map Prod.fst := by
  induction l with
  | nil => simp [lookupShift]
  | cons kv rest ih =>
    obtain ⟨q, sh⟩ := kv
    by_cases hq : q = ptr
    · subst hq
      simp [lookupShift]
    · simp [lookupShift, hq, ih, Ne.symm hq]

theorem lookupShift_mem (ptr sh : Nat) (l : List (Nat × Nat))
    (h : lookupShift ptr l = some sh) : (ptr, sh) ∈ l := by
  induction l with
  | nil => simp [lookupShift] at h
  | cons kv rest ih =>
    obtain ⟨q, v⟩ := kv
    by_cases hq : q = ptr
    · subst hq
      simp [lookupShift] at h
      simp [h]
    · simp [lookupShift, hq] at h
      exact List.mem_cons_of_mem _ (ih h)

theorem perm_cons_eraseKey (ptr sh : Nat) (l : List (Nat × Nat))
    (h : lookupShift ptr l = some sh) : l.Perm ((ptr, sh) :: eraseKey ptr l) := by
  induction l with
  | nil => simp [lookupShift] at h
  | cons kv rest ih =>
    obtain ⟨q, v⟩ := kv
    by_cases hq : q = ptr
    · subst hq
      have hv : v = sh := by simpa [lookupShift] using h
      subst hv
      simp [eraseKey]
    · simp only [lookupShift, if_neg hq] at h
      simp only [eraseKey, if_neg hq]
      exact ((ih h).cons (q, v)).trans (List.Perm.swap _ _ _)

theorem mem_eraseKey (kv : Nat × Nat) (ptr : Nat) (l : List (Nat × Nat))
    (h : kv ∈ eraseKey ptr l) : kv ∈ l := by
  induction l with
  | nil => simp [eraseKey] at h
  | cons hd rest ih =>
    obtain ⟨q, v⟩ := hd
    by_cases hq : q = ptr
    · simp only [eraseKey, if_pos hq] at h
      exact List.mem_cons_of_mem _ h
    · simp only [eraseKey, if_neg hq] at h
      rcases List.mem_cons.1 h with h1 | h1
      · simp [h1]
      · exact List.mem_cons_of_mem _ (ih h1)

theorem emplaceSupplied_fresh (ptr sh : Nat) (l : List (Nat × Nat))
    (h : ptr ∉ l.map Prod.fst) : emplaceSupplied ptr sh l = (ptr, sh) :: l := by
  rw [emplaceSupplied, (lookupShift_eq_none ptr l).2 h]
  rfl

/-! Helper lemmas about flattening a bucket list with one bucket replaced. -/

theorem flatten_decomp (l : List (List β)) (i : Nat) (h : i < l.length) :
    l.flatten = (l.take i).flatten ++ (l.getD i [] ++ (l.drop (i + 1)).flatten) := by
  induction l generalizing i with
  | nil => simp at h
  | cons hd tl ih =>
    cases i with
    | zero => simp
    | succ n =>
      have hn : n < tl.length := by simpa using h
      simp only [List.flatten_cons, List.take_succ_cons, List.drop_succ_cons, List.getD_cons_succ]
      rw [ih n hn]
      simp

theorem flatten_set (l : List (List β)) (i : Nat) (b : List β) (h : i < l.length) :
    (l.set i b).flatten = (l.take i).flatten ++ (b ++ (l.drop (i + 1)).flatten) := by
  induction l generalizing i with
  | nil => simp at h
  | cons hd tl ih =>
    cases i with
    | zero => simp
    | succ n =>
      have hn : n < tl.length := by simpa using h
      simp only [List.set_cons_succ, List.flatten_cons, List.take_succ_cons,
        List.drop_succ_cons]
      rw [ih n hn]
      simp

/-! Helper lemmas for indexing into a flattened list of equal-length blocks. -/

theorem getD_map_range (g : Nat → β) (n i : Nat) (d : β) (hi : i < n) :
    ((List.range n).map g).getD i d = g i := by
  rw [List.getD_eq_getElem _ _ (by simpa using hi)]
  simp

theorem length_flatten_blocks (f : Nat → List β) (L : Nat) :
    ∀ n, (∀ j < n, (f j).length = L) →
      (((List.range n).map f).flatten).length = n * L := by
  intro n
  induction n with
  | zero => simp
  | succ n ih =>
    intro hf
    rw [List.range_succ, List.map_append, List.flatten_append, List.length_append,
      ih (fun j hj => hf j (by omega))]
    simp [hf n (by omega), Nat.succ_mul]

theorem getD_flatten_blocks (f : Nat → List β) (L : Nat) :
    ∀ (n k i : Nat) (d : β), (∀ j < n, (f j).length = L) → k < n → i < L →
      (((List.range n).map f).flatten).getD (k * L + i) d = (f k).getD i d := by
  intro n
  induction n with
  | zero => omega
  | succ n ih =>
    intro k i d hf hk hi
    rw [List.range_succ, List.map_append, List.flatten_append]
    by_cases hkn : k < n
    · rw [List.getD_append]
      · exact ih k i d (fun j hj => hf j (by omega)) hkn hi
      · rw [length_flatten_blocks f L n (fun j hj => hf j (by omega))]
        have h1 : (k + 1) * L ≤ n * L := Nat.mul_le_mul_right L hkn
        have h2 : k * L + i < (k + 1) * L := by
          rw [Nat.succ_mul]
          omega
        omega
    · have hkeq : k = n := by omega
      subst hkeq
      rw [List.getD_append_right]
      · rw [length_flatten_blocks f L k (fun j hj => hf j (by omega))]
        simp [Nat.add_sub_cancel_left]
      · rw [length_flatten_blocks f L k (fun j hj => hf j (by omega))]
        omega

/-! Helper lemma turning the left-fold accumulation into a finite sum. -/

theorem foldl_add_range {β : Type} [AddCommMonoid β] (g : Nat → β) (init : β) (n : Nat) :
    (List.range n).foldl (fun acc k => acc + g k) init =
      init + ∑ k ∈ Finset.range n, g k := by
  induction n with
  | zero => simp
  | succ n ih =>
    rw [List.range_succ, List.foldl_append, ih, Finset.sum_range_succ]
    simp [add_assoc]

/-! Helper lemmas about `MemoryPool.allocate`. -/

theorem minimum_clamp (s : MemoryPool) (size : Nat) :
    (if size < s.minimum_size then s.minimum_size else size)
      = max size s.minimum_size := by
  split <;> omega

theorem allocate_ok_mem_size (s : MemoryPool) (size : Nat) (s2 : MemoryPool)
    (ptr m : Nat) (h : s.allocate size = (s2, .ok (some ptr, m))) :
    size ≠ 0 ∧ calculate_shifts (max size s.minimum_size) ≤ 63 ∧
      m = 2 ^ calculate_shifts (max size s.minimum_size) := by
  by_cases h0 : size = 0
  · simp [MemoryPool.allocate, h0] at h
  · by_cases hs : 63 < calculate_shifts (max size s.minimum_size)
    · simp [MemoryPool.allocate, h0, minimum_clamp, hs] at h
    · refine ⟨h0, by omega, ?_⟩
      rcases hb : s.reserved.getD (calculate_shifts (max size s.minimum_size)) []
        with _ | ⟨p, rest⟩ <;>
        rw [List.getD_eq_getElem?_getD] at hb
      · rcases hp : s.alloc_plan with _ | ⟨r, rest2⟩
        · simp [MemoryPool.allocate, h0, minimum_clamp, hs, MemoryPool.callAllocator,
            MemoryPool.release_reserved_blocks, hb, hp] at h
        · rcases r with _ | p1
          · rcases rest2 with _ | ⟨r2, rest3⟩
            · simp [MemoryPool.allocate, h0, minimum_clamp, hs, MemoryPool.callAllocator,
                MemoryPool.release_reserved_blocks, hb, hp] at h
            · rcases r2 with _ | p2 <;>
                simp [MemoryPool.allocate, h0, minimum_clamp, hs, MemoryPool.callAllocator,
                  MemoryPool.release_reserved_blocks, hb, hp] at h <;>
                simp_all
          · simp [MemoryPool.allocate, h0, minimum_clamp, hs, MemoryPool.callAllocator,
              MemoryPool.release_reserved_blocks, hb, hp] at h
            simp_all
      · simp [MemoryPool.allocate, h0, minimum_clamp, hs, MemoryPool.callAllocator, hb] at h
        simp_all

/-- C1: `allocate(size)` returns the null block and performs no allocation
and records nothing when `size == 0`; when the exponent needed for
`max(size, minimum_size_)` exceeds 63 it signals the invalid-size error
with the pool unchanged; and every issued block has size
`2^ceil(log2(max(size, minimum_size_)))`, stated as the least power of two
that is at least `max(size, minimum_size_)`. -/
theorem claim_C1_allocate_rounding (s : MemoryPool) (size : Nat) :
    (size = 0 → s.allocate size = (s, .ok (none, 0))) ∧
    (size ≠ 0 → 2 ^ 63 < max size s.minimum_size →
      s.allocate size = (s, .error .invalidSize)) ∧
    (∀ s2 ptr m, s.allocate size = (s2, .ok (some ptr, m)) →
      (∃ k, m = 2 ^ k) ∧ max size s.minimum_size ≤ m ∧
        ∀ j, max size s.minimum_size ≤ 2 ^ j → m ≤ 2 ^ j) := by
  refine ⟨fun h0 => by simp [MemoryPool.allocate, h0], ?_, ?_⟩
  · intro h0 hbig
    have hshift : 63 < calculate_shifts (max size s.minimum_size) := by
      by_contra hc
      push_neg at hc
      have h1 := le_pow_calculate_shifts _ hc
      have h2 : (2 : Nat) ^ calculate_shifts (max size s.minimum_size) ≤ 2 ^ 63 :=
        Nat.pow_le_pow_right (by norm_num) hc
      omega
    simp [MemoryPool.allocate, if_neg h0, minimum_clamp, hshift]
  · intro s2 ptr m h
    obtain ⟨h0, hle, hm⟩ := allocate_ok_mem_size s size s2 ptr m h
    subst hm
    refine ⟨⟨_, rfl⟩, le_pow_calculate_shifts _ hle, fun j hj => ?_⟩
    exact Nat.pow_le_pow_right (by norm_num) (calculate_shifts_le _ j hj)

/-- Witness for C1: allocating 17 bytes from `poolA` (minimum size 16)
issues a block of 32 bytes, the least power of two at least 17. -/
theorem claim_C1_allocate_rounding_witness :
    (∃ k, (32 : Nat) = 2 ^ k) ∧ max 17 poolA.minimum_size ≤ 32 ∧
      ∀ j, max 17 poolA.minimum_size ≤ 2 ^ j → 32 ≤ 2 ^ j := by
  exact (claim_C1_allocate_rounding poolA 17).2.2
    { poolA with supplied := [(100, 5)], alloc_plan := [] } 100 32 (by rfl)

/-- C2: with the reserved bucket for the computed exponent empty, a failing
first allocator call makes `allocate` release every reserved block in every
bucket through the deleter and retry the allocator exactly once for the
same `2^shift` size — a second failure propagates, a successful retry
surfaces no error; and when the first allocator call succeeds, nothing is
released and no further allocator call is made, so the release-and-retry
is the only failure the pool absorbs. -/
theorem claim_C2_oom_release_retry (s : MemoryPool) (size : Nat)
    (h0 : size ≠ 0)
    (hs : calculate_shifts (max size s.minimum_size) ≤ 63)
    (hb : s.reserved.getD (calculate_shifts (max size s.minimum_size)) [] = []) :
    (∀ r rest, s.alloc_plan = none :: r :: rest →
      ((s.allocate size).1.deleted = s.deleted ++ s.reserved.flatten) ∧
      ((s.allocate size).1.alloc_plan = rest) ∧
      (∀ p, r = some p →
        (s.allocate size).2
          = .ok (some p, 2 ^ calculate_shifts (max size s.minimum_size))) ∧
      (r = none → (s.allocate size).2 = .error .allocationFailure)) ∧
    (∀ p rest, s.alloc_plan = some p :: rest →
      ((s.allocate size).1.deleted = s.deleted) ∧
      ((s.allocate size).1.alloc_plan = rest) ∧
      (s.allocate size).2
        = .ok (some p, 2 ^ calculate_shifts (max size s.minimum_size))) := by
  rw [List.getD_eq_getElem?_getD] at hb
  have hns : ¬ 63 < calculate_shifts (max size s.minimum_size) := by omega
  constructor
  · intro r rest hp
    rcases r with _ | p <;>
      simp [MemoryPool.allocate, h0, minimum_clamp, hns, MemoryPool.callAllocator,
        MemoryPool.release_reserved_blocks, hb, hp, emplaceSupplied]
  · intro p rest hp
    simp [MemoryPool.allocate, h0, minimum_clamp, hns, MemoryPool.callAllocator,
      MemoryPool.release_reserved_blocks, hb, hp, emplaceSupplied]

/-- Witness for C2: `poolB` (bucket 3 reserves pointers 7 and 8, allocator
plan fails then yields pointer 42): allocating 16 bytes releases both
reserved pointers to the deleter, consumes both plan entries, and the
retry succeeds with a 16-byte block. -/
theorem claim_C2_oom_release_retry_witness :
    ((poolB.allocate 16).1.deleted = poolB.deleted ++ poolB.reserved.flatten) ∧
    ((poolB.allocate 16).1.alloc_plan = []) ∧
    (∀ p, (some 42 : Option Nat) = some p →
      (poolB.allocate 16).2
        = .ok (some p, 2 ^ calculate_shifts (max 16 poolB.minimum_size))) ∧
    ((some 42 : Option Nat) = none → (poolB.allocate 16).2 = .error .allocationFailure) := by
  exact (claim_C2_oom_release_retry poolB 16 (by decide) (by decide) (by decide)).1
    (some 42) [] (by decide)

/-- Helper: `free` on a pointer that is not a key of `supplied_` raises
the unknown-handle error and leaves the state unchanged. -/
theorem free_unknown (s : MemoryPool) (ptr : Nat)
    (h : ptr ∉ s.supplied.map Prod.fst) :
    s.free ptr = (s, .error .unknownHandle) := by
  rw [MemoryPool.free, (lookupShift_eq_none ptr s.supplied).2 h]

/-- C4: `free(ptr)` on a pointer absent from `supplied_` signals the
unknown-handle error and changes nothing; on a supplied pointer it removes
the entry, pushes the pointer onto the bucket recorded for it, does not
invoke the deleter or the allocator, and an immediate second `free` of the
same pointer signals the unknown-handle error. -/
theorem claim_C4_free (s : MemoryPool) (ptr : Nat) :
    (ptr ∉ s.supplied.map Prod.fst → s.free ptr = (s, .error .unknownHandle)) ∧
    (∀ sh, lookupShift ptr s.supplied = some sh →
      (s.free ptr).2 = .ok () ∧
      (s.free ptr).1.supplied = eraseKey ptr s.supplied ∧
      (s.free ptr).1.reserved = s.reserved.set sh (ptr :: s.reserved.getD sh []) ∧
      (s.free ptr).1.deleted = s.deleted ∧
      (s.free ptr).1.alloc_plan = s.alloc_plan) ∧
    ((s.supplied.map Prod.fst).Nodup → ∀ sh,
      lookupShift ptr s.supplied = some sh →
      ((s.free ptr).1).free ptr = ((s.free ptr).1, .error .unknownHandle)) := by
  refine ⟨free_unknown s ptr, ?_, ?_⟩
  · intro sh hlk
    simp [MemoryPool.free, hlk]
  · intro hnd sh hlk
    apply free_unknown
    have hperm : (s.supplied.map Prod.fst).Perm
        (ptr :: (eraseKey ptr s.supplied).map Prod.fst) :=
      (perm_cons_eraseKey ptr sh s.supplied hlk).map Prod.fst
    have : (ptr :: (eraseKey ptr s.supplied).map Prod.fst).Nodup := hperm.nodup hnd
    have hout : ptr ∉ (eraseKey ptr s.supplied).map Prod.fst :=
      (List.nodup_cons.1 this).1
    simpa [MemoryPool.free, hlk] using hout

/-- Witness for C4: in `poolC` (pointer 100 supplied at exponent 5),
freeing 100 succeeds, moves it to bucket 5 without touching the deleter,
and freeing it again immediately raises the unknown-handle error. -/
theorem claim_C4_free_witness :
    ((poolC.free 100).2 = .ok () ∧
      (poolC.free 100).1.supplied = eraseKey 100 poolC.supplied ∧
      (poolC.free 100).1.reserved
        = poolC.reserved.set 5 (100 :: poolC.reserved.getD 5 []) ∧
      (poolC.free 100).1.deleted = poolC.deleted ∧
      (poolC.free 100).1.alloc_plan = poolC.alloc_plan) ∧
    ((poolC.free 100).1).free 100 = ((poolC.free 100).1, .error .unknownHandle) := by
  exact ⟨(claim_C4_free poolC 100).2.1 5 (by decide),
    (claim_C4_free poolC 100).2.2 (by decide) 5 (by decide)⟩

/-! Helper lemmas for the tracking invariant (C7). -/

theorem flatten_map_nil (l : List (List Nat)) :
    (l.map (fun _ => ([] : List Nat))).flatten = [] := by
  induction l <;> simp [*]

theorem tracked_release (s : MemoryPool) :
    (s.release_reserved_blocks).tracked = s.supplied.map Prod.fst := by
  simp [MemoryPool.tracked, MemoryPool.release_reserved_blocks, flatten_map_nil]

theorem WF_release (s : MemoryPool) (h : s.WF) : (s.release_reserved_blocks).WF := by
  obtain ⟨hlen, hnd, hsh⟩ := h
  refine ⟨by simp [MemoryPool.release_reserved_blocks, hlen], ?_, ?_⟩
  · rw [tracked_release]
    exact (List.nodup_append.1 (by simpa [MemoryPool.tracked] using hnd)).1
  · simpa [MemoryPool.release_reserved_blocks] using hsh

/-- Moving the head of bucket `sh` into the supplied map permutes the
tracked-pointer list. -/
theorem tracked_reuse_perm (s : MemoryPool) (p sh : Nat) (rest : List Nat)
    (hshlen : sh < s.reserved.length)
    (hb : s.reserved.getD sh [] = p :: rest) :
    ((p :: s.supplied.map Prod.fst) ++ (s.reserved.set sh rest).flatten).Perm
      s.tracked := by
  rw [← Multiset.coe_eq_coe, MemoryPool.tracked,
    flatten_set _ _ _ hshlen, flatten_decomp s.reserved sh hshlen, hb]
  simp only [← Multiset.coe_add, ← Multiset.cons_coe, ← Multiset.singleton_add,
    List.cons_append]
  abel

/-- Moving a supplied pointer onto the front of bucket `sh` permutes the
tracked-pointer list. -/
theorem tracked_free_perm (s : MemoryPool) (p sh : Nat)
    (hshlen : sh < s.reserved.length)
    (hlk : lookupShift p s.supplied = some sh) :
    ((eraseKey p s.supplied).map Prod.fst
        ++ (s.reserved.set sh (p :: s.reserved.getD sh [])).flatten).Perm
      s.tracked := by
  have hperm : (s.supplied.map Prod.fst).Perm
      (p :: (eraseKey p s.supplied).map Prod.fst) :=
    (perm_cons_eraseKey p sh s.supplied hlk).map Prod.fst
  rw [← Multiset.coe_eq_coe, MemoryPool.tracked,
    flatten_set _ _ _ hshlen, flatten_decomp s.reserved sh hshlen]
  simp only [← Multiset.coe_add, ← Multiset.cons_coe, ← Multiset.singleton_add,
    List.cons_append]
  rw [Multiset.coe_eq_coe.2 hperm]
  simp only [← Multiset.coe_add, ← Multiset.cons_coe, ← Multiset.singleton_add]
  abel

theorem WF_mk (s : MemoryPool) (h1 : s.reserved.length = 64)
    (h2 : s.tracked.Nodup) (h3 : ∀ kv ∈ s.supplied, kv.2 < 64) : s.WF :=
  ⟨h1, h2, h3⟩

theorem WF_free (s : MemoryPool) (ptr : Nat) (h : s.WF) : ((s.free ptr).1).WF := by
  rcases hlk : lookupShift ptr s.supplied with _ | sh
  · simpa [MemoryPool.free, hlk] using h
  · obtain ⟨hlen, hnd, hsh⟩ := h
    have hmem := lookupShift_mem ptr sh s.supplied hlk
    have hsh64 : sh < 64 := hsh _ hmem
    have hshlen : sh < s.reserved.length := by omega
    have hperm := tracked_free_perm s ptr sh hshlen hlk
    refine WF_mk _ (by simp [MemoryPool.free, hlk, hlen]) ?_ ?_
    · have heq : ((s.free ptr).1).tracked
          = (eraseKey ptr s.supplied).map Prod.fst
            ++ (s.reserved.set sh (ptr :: s.reserved.getD sh [])).flatten := by
        simp [MemoryPool.free, hlk, MemoryPool.tracked]
      rw [heq]
      exact hperm.symm.nodup hnd
    · intro kv hkv
      exact hsh _ (mem_eraseKey _ _ _ (by simpa [MemoryPool.free, hlk] using hkv))

/-- Helper: a pointer absent from the tracked list is absent from the
supplied keys. -/
theorem not_key_of_not_tracked (s : MemoryPool) (p : Nat) (h : p ∉ s.tracked) :
    p ∉ s.supplied.map Prod.fst :=
  fun hmem => h (List.mem_append_left _ hmem)

theorem WF_allocate (s : MemoryPool) (size : Nat) (h : s.WF) (hf : s.FreshPlan) :
    ((s.allocate size).1).WF := by
  by_cases h0 : size = 0
  · simpa [MemoryPool.allocate, h0] using h
  · by_cases hs : 63 < calculate_shifts (max size s.minimum_size)
    · simpa [MemoryPool.allocate, h0, minimum_clamp, hs] using h
    · obtain ⟨hlen, hnd, hsh⟩ := h
      have hshlen : calculate_shifts (max size s.minimum_size) < s.reserved.length := by
        omega
      have hndk : (s.supplied.map Prod.fst).Nodup :=
        (List.nodup_append.1 (by simpa [MemoryPool.tracked] using hnd)).1
      rcases hb : s.reserved.getD (calculate_shifts (max size s.minimum_size)) []
        with _ | ⟨p, rest⟩
      · -- new-block path
        rcases hp : s.alloc_plan with _ | ⟨r, rest2⟩
        · -- plan exhausted at once: the end state is the released pool
          simp only [MemoryPool.allocate, if_neg h0, minimum_clamp, if_neg hs,
            MemoryPool.callAllocator, hb, hp, MemoryPool.release_reserved_blocks]
          refine WF_mk _ (by simpa using hlen) ?_ ?_
          · simp only [MemoryPool.tracked, flatten_map_nil, List.append_nil]
            exact hndk
          · intro kv hkv
            exact hsh _ (by simpa using hkv)
        · rcases r with _ | p1
          · -- first call fails: release, then retry
            rcases rest2 with _ | ⟨r2, rest3⟩
            · -- retry exhausted
              simp only [MemoryPool.allocate, if_neg h0, minimum_clamp, if_neg hs,
                MemoryPool.callAllocator, hb, hp, MemoryPool.release_reserved_blocks]
              refine WF_mk _ (by simpa using hlen) ?_ ?_
              · simp only [MemoryPool.tracked, flatten_map_nil, List.append_nil]
                exact hndk
              · intro kv hkv
                exact hsh _ (by simpa using hkv)
            · rcases r2 with _ | p2
              · -- retry fails
                simp only [MemoryPool.allocate, if_neg h0, minimum_clamp, if_neg hs,
                  MemoryPool.callAllocator, hb, hp, MemoryPool.release_reserved_blocks]
                refine WF_mk _ (by simpa using hlen) ?_ ?_
                · simp only [MemoryPool.tracked, flatten_map_nil, List.append_nil]
                  exact hndk
                · intro kv hkv
                  exact hsh _ (by simpa using hkv)
              · -- retry succeeds with fresh pointer p2
                have hp2 : p2 ∉ s.tracked := by
                  apply hf
                  simp [hp]
                have hkey : p2 ∉ s.supplied.map Prod.fst :=
                  not_key_of_not_tracked s p2 hp2
                simp only [MemoryPool.allocate, if_neg h0, minimum_clamp, if_neg hs,
                  MemoryPool.callAllocator, hb, hp, MemoryPool.release_reserved_blocks]
                refine WF_mk _ (by simpa using hlen) ?_ ?_
                · simp only [MemoryPool.tracked,
                    emplaceSupplied_fresh _ _ _ hkey, List.map_cons, List.cons_append,
                    List.nodup_cons, flatten_map_nil, List.append_nil]
                  exact ⟨hkey, hndk⟩
                · intro kv hkv
                  simp only [emplaceSupplied_fresh _ _ _ hkey] at hkv
                  rcases List.mem_cons.1 hkv with h1 | h1
                  · subst h1
                    omega
                  · exact hsh _ (by simpa using h1)
          · -- first call succeeds with fresh pointer p1
            have hp1 : p1 ∉ s.tracked := by
              apply hf
              simp [hp]
            have hkey : p1 ∉ s.supplied.map Prod.fst :=
              not_key_of_not_tracked s p1 hp1
            simp only [MemoryPool.allocate, if_neg h0, minimum_clamp, if_neg hs,
              MemoryPool.callAllocator, hb, hp]
            refine WF_mk _ (by simpa using hlen) ?_ ?_
            · simp only [MemoryPool.tracked,
                emplaceSupplied_fresh _ _ _ hkey, List.map_cons, List.cons_append,
                List.nodup_cons]
              exact ⟨by simpa [MemoryPool.tracked] using hp1,
                by simpa [MemoryPool.tracked] using hnd⟩
            · intro kv hkv
              simp only [emplaceSupplied_fresh _ _ _ hkey] at hkv
              rcases List.mem_cons.1 hkv with h1 | h1
              · subst h1
                omega
              · exact hsh _ (by simpa using h1)
      · -- reuse path: move the bucket head into the supplied map
        have hpflat : p ∈ s.reserved.flatten := by
          rw [flatten_decomp s.reserved _ hshlen, hb]
          simp
        have hkey : p ∉ s.supplied.map Prod.fst := fun hmem =>
          (List.disjoint_of_nodup_append
            (by simpa [MemoryPool.tracked] using hnd)) hmem hpflat
        have hperm := tracked_reuse_perm s p _ rest hshlen hb
        simp only [MemoryPool.allocate, if_neg h0, minimum_clamp, if_neg hs, hb]
        refine WF_mk _ (by simpa using hlen) ?_ ?_
        · simp only [MemoryPool.tracked,
            emplaceSupplied_fresh _ _ _ hkey, List.map_cons]
          exact hperm.symm.nodup hnd
        · intro kv hkv
          simp only [emplaceSupplied_fresh _ _ _ hkey] at hkv
          rcases List.mem_cons.1 hkv with h1 | h1
          · subst h1
            omega
          · exact hsh _ (by simpa using h1)

/-- C7: every pointer the pool tracks appears in exactly one of the
supplied map or exactly one reserved bucket (stated as: the concatenation
of the supplied keys and all bucket contents has no duplicate), and this
invariant is preserved by every `allocate` (reuse path and OOM
release-and-retry path included, given that the underlying allocator
hands out untracked pointers), every `free`, and every
`release_reserved_blocks`. -/
theorem claim_C7_tracking_invariant (s : MemoryPool) (h : s.WF) :
    (∀ size, s.FreshPlan → ((s.allocate size).1).WF) ∧
    (∀ ptr, ((s.free ptr).1).WF) ∧
    (s.release_reserved_blocks).WF :=
  ⟨fun size hf => WF_allocate s size h hf,
   fun ptr => WF_free s ptr h,
   WF_release s h⟩

/-- Witness for C7: the invariant survives an OOM-retried allocation, a
`free`, and a full release on the concrete pool `poolB`. -/
theorem claim_C7_tracking_invariant_witness :
    ((poolB.allocate 16).1).WF ∧ ((poolB.free 7).1).WF ∧
      (poolB.release_reserved_blocks).WF := by
  have hwf : poolB.WF := ⟨by decide, by decide, by decide⟩
  have hfp : poolB.FreshPlan := by
    intro p hp
    have hp42 : p = 42 := by simpa [poolB] using hp
    subst hp42
    decide
  have h := claim_C7_tracking_invariant poolB hwf
  exact ⟨h.1 16 hfp, h.2.1 7, h.2.2⟩

/-- C3: the binary elementwise kernels (`add`, `subtract`, `multiply`,
`divide` are the four instances of the shared dispatch, with operand order
preserved) signal the shape-mismatch error when the non-batch dims differ
or when both batch sizes exceed one and differ; with equal batch sizes
they combine elementwise over the full `size()` into the shared shape;
with exactly one batch-size-1 operand, that operand is broadcast across
each batch slice of the other and the result takes the shape of the other operand. -/
theorem claim_C3_binary_elementwise {α : Type} [Zero α] [Add α] [Sub α] [Mul α] [Div α]
    (f : α → α → α) (a b : Tensor α) :
    (CPUDevice.add a b = binaryOp (· + ·) a b ∧
      CPUDevice.subtract a b = binaryOp (fun x y => x - y) a b ∧
      CPUDevice.multiply a b = binaryOp (· * ·) a b ∧
      CPUDevice.divide a b = binaryOp (fun x y => x / y) a b) ∧
    (a.shape.dims ≠ b.shape.dims → binaryOp f a b = .error .shapeMismatch) ∧
    (a.shape.dims = b.shape.dims → a.shape.batch_size ≠ b.shape.batch_size →
      a.shape.batch_size ≠ 1 → b.shape.batch_size ≠ 1 →
      binaryOp f a b = .error .shapeMismatch) ∧
    (a.shape.dims = b.shape.dims → a.shape.batch_size = b.shape.batch_size →
      ∃ t, binaryOp f a b = .ok t ∧ t.shape = a.shape ∧
        t.data.length = a.shape.size ∧
        ∀ i < a.shape.size,
          t.data.getD i 0 = f (a.data.getD i 0) (b.data.getD i 0)) ∧
    (a.shape.dims = b.shape.dims → a.shape.batch_size = 1 →
      b.shape.batch_size ≠ 1 →
      ∃ t, binaryOp f a b = .ok t ∧ t.shape = b.shape ∧
        t.data.length = b.shape.size ∧
        ∀ k < b.shape.batch_size, ∀ i < a.shape.size,
          t.data.getD (k * a.shape.size + i) 0
            = f (a.data.getD i 0) (b.data.getD (k * a.shape.size + i) 0)) ∧
    (a.shape.dims = b.shape.dims → b.shape.batch_size = 1 →
      a.shape.batch_size ≠ 1 →
      ∃ t, binaryOp f a b = .ok t ∧ t.shape = a.shape ∧
        t.data.length = a.shape.size ∧
        ∀ k < a.shape.batch_size, ∀ i < b.shape.size,
          t.data.getD (k * b.shape.size + i) 0
            = f (a.data.getD (k * b.shape.size + i) 0) (b.data.getD i 0)) := by
  refine ⟨⟨rfl, rfl, rfl, rfl⟩, ?_, ?_, ?_, ?_, ?_⟩
  · intro hd
    simp [binaryOp, hd]
  · intro hd hne ha1 hb1
    simp [binaryOp, hd, hne, ha1, hb1]
  · intro hd hbs
    have heq : binaryOp f a b = .ok ⟨a.shape,
        (List.range a.shape.size).map (fun i =>
          f (a.data.getD i 0) (b.data.getD i 0))⟩ := by
      simp [binaryOp, hd, hbs]
    refine ⟨_, heq, rfl, by simp, ?_⟩
    intro i hi
    exact getD_map_range _ _ _ _ hi
  · intro hd ha1 hb1
    have hne : a.shape.batch_size ≠ b.shape.batch_size := by omega
    have hne1 : (1 : Nat) ≠ b.shape.batch_size := by omega
    have heq : binaryOp f a b = .ok ⟨b.shape,
        ((List.range b.shape.batch_size).map (fun k =>
          (List.range a.shape.size).map (fun i =>
            f (a.data.getD i 0) (b.data.getD (k * a.shape.size + i) 0)))).flatten⟩ := by
      simp [binaryOp, hd, hne, hne1, ha1]
    refine ⟨_, heq, rfl, ?_, ?_⟩
    · rw [length_flatten_blocks _ a.shape.size _ (fun j hj => by simp)]
      simp [Shape.size, hd, ha1, Nat.mul_comm]
    · intro k hk i hi
      rw [getD_flatten_blocks _ a.shape.size _ k i 0 (fun j hj => by simp) hk hi]
      exact getD_map_range _ _ _ _ hi
  · intro hd hb1 ha1
    have hne : a.shape.batch_size ≠ b.shape.batch_size := by omega
    have heq : binaryOp f a b = .ok ⟨a.shape,
        ((List.range a.shape.batch_size).map (fun k =>
          (List.range b.shape.size).map (fun i =>
            f (a.data.getD (k * b.shape.size + i) 0) (b.data.getD i 0)))).flatten⟩ := by
      simp [binaryOp, hd, hne, ha1, hb1]
    refine ⟨_, heq, rfl, ?_, ?_⟩
    · rw [length_flatten_blocks _ b.shape.size _ (fun j hj => by simp)]
      simp [Shape.size, hd, hb1, Nat.mul_comm]
    · intro k hk i hi
      rw [getD_flatten_blocks _ b.shape.size _ k i 0 (fun j hj => by simp) hk hi]
      exact getD_map_range _ _ _ _ hi

/-- Witness for C3: broadcasting the batch-1 `tensA` across the batch-2
`tensB` under addition yields a batch-2 result combining each slice
elementwise, and adding a batch-2 tensor to a batch-3 tensor signals the
shape-mismatch error. -/
theorem claim_C3_binary_elementwise_witness :
    (∃ t, binaryOp (· + ·) tensA tensB = .ok t ∧ t.shape = tensB.shape ∧
      t.data.length = tensB.shape.size ∧
      ∀ k < tensB.shape.batch_size, ∀ i < tensA.shape.size,
        t.data.getD (k * tensA.shape.size + i) 0
          = tensA.data.getD i 0 + tensB.data.getD (k * tensA.shape.size + i) 0) ∧
    binaryOp (· + ·) tensB tensD = .error .shapeMismatch := by
  constructor
  · exact (claim_C3_binary_elementwise (· + ·) tensA tensB).2.2.2.2.1
      (by decide) (by decide) (by decide)
  · exact (claim_C3_binary_elementwise (· + ·) tensB tensD).2.2.1
      (by decide) (by decide) (by decide) (by decide)

/-- C6: `add_gradient(dest, src)` accumulates in place under the same
dims-equality requirement and three-way batch dispatch as the binary
elementwise kernels (the embedding returns the new value of `dest` and
leaves `src` untouched by construction); when `dest.batch_size == 1` and
`src.batch_size > 1` every batch slice of `src` is summed into the single
slice of `dest` (a batch-reduce); incompatible shapes signal the
shape-mismatch error. -/
theorem claim_C6_add_gradient {α : Type} [AddCommMonoid α] (a b : Tensor α) :
    (a.shape.dims ≠ b.shape.dims →
      CPUDevice.add_gradient a b = .error .shapeMismatch) ∧
    (a.shape.dims = b.shape.dims → a.shape.batch_size ≠ b.shape.batch_size →
      a.shape.batch_size ≠ 1 → b.shape.batch_size ≠ 1 →
      CPUDevice.add_gradient a b = .error .shapeMismatch) ∧
    (a.shape.dims = b.shape.dims → a.shape.batch_size = b.shape.batch_size →
      ∃ t, CPUDevice.add_gradient a b = .ok t ∧ t.shape = a.shape ∧
        t.data.length = a.shape.size ∧
        ∀ i < a.shape.size,
          t.data.getD i 0 = a.data.getD i 0 + b.data.getD i 0) ∧
    (a.shape.dims = b.shape.dims → a.shape.batch_size = 1 →
      b.shape.batch_size ≠ 1 →
      ∃ t, CPUDevice.add_gradient a b = .ok t ∧ t.shape = a.shape ∧
        t.data.length = a.shape.size ∧
        ∀ i < a.shape.size,
          t.data.getD i 0 = a.data.getD i 0
            + ∑ k ∈ Finset.range b.shape.batch_size,
                b.data.getD (k * a.shape.size + i) 0) ∧
    (a.shape.dims = b.shape.dims → b.shape.batch_size = 1 →
      a.shape.batch_size ≠ 1 →
      ∃ t, CPUDevice.add_gradient a b = .ok t ∧ t.shape = a.shape ∧
        t.data.length = a.shape.size ∧
        ∀ k < a.shape.batch_size, ∀ i < b.shape.size,
          t.data.getD (k * b.shape.size + i) 0
            = a.data.getD (k * b.shape.size + i) 0 + b.data.getD i 0) := by
  refine ⟨?_, ?_, ?_, ?_, ?_⟩
  · intro hd
    simp [CPUDevice.add_gradient, hd]
  · intro hd hne ha1 hb1
    simp [CPUDevice.add_gradient, hd, hne, ha1, hb1]
  · intro hd hbs
    have heq : CPUDevice.add_gradient a b = .ok ⟨a.shape,
        (List.range a.shape.size).map (fun i =>
          a.data.getD i 0 + b.data.getD i 0)⟩ := by
      simp [CPUDevice.add_gradient, hd, hbs]
    refine ⟨_, heq, rfl, by simp, ?_⟩
    intro i hi
    exact getD_map_range _ _ _ _ hi
  · intro hd ha1 hb1
    have hne : a.shape.batch_size ≠ b.shape.batch_size := by omega
    have hne1 : (1 : Nat) ≠ b.shape.batch_size := by omega
    have heq : CPUDevice.add_gradient a b = .ok ⟨a.shape,
        (List.range a.shape.size).map (fun i =>
          (List.range b.shape.batch_size).foldl
            (fun acc k => acc + b.data.getD (k * a.shape.size + i) 0)
            (a.data.getD i 0))⟩ := by
      simp [CPUDevice.add_gradient, hd, hne, hne1, ha1]
    refine ⟨_, heq, rfl, by simp, ?_⟩
    intro i hi
    rw [getD_map_range _ _ _ _ hi, foldl_add_range]
  · intro hd hb1 ha1
    have hne : a.shape.batch_size ≠ b.shape.batch_size := by omega
    have heq : CPUDevice.add_gradient a b = .ok ⟨a.shape,
        ((List.range a.shape.batch_size).map (fun k =>
          (List.range b.shape.size).map (fun i =>
            a.data.getD (k * b.shape.size + i) 0 + b.data.getD i 0))).flatten⟩ := by
      simp [CPUDevice.add_gradient, hd, hne, ha1, hb1]
    refine ⟨_, heq, rfl, ?_, ?_⟩
    · rw [length_flatten_blocks _ b.shape.size _ (fun j hj => by simp)]
      simp [Shape.size, hd, hb1, Nat.mul_comm]
    · intro k hk i hi
      rw [getD_flatten_blocks _ b.shape.size _ k i 0 (fun j hj => by simp) hk hi]
      exact getD_map_range _ _ _ _ hi

/-- Witness for C6: accumulating the batch-2 `tensB` into the batch-1
`tensA` batch-reduces: each output element is the stored value plus the
sum of the two corresponding slice elements of `tensB`. -/
theorem claim_C6_add_gradient_witness :
    ∃ t, CPUDevice.add_gradient tensA tensB = .ok t ∧ t.shape = tensA.shape ∧
      t.data.length = tensA.shape.size ∧
      ∀ i < tensA.shape.size,
        t.data.getD i 0 = tensA.data.getD i 0
          + ∑ k ∈ Finset.range tensB.shape.batch_size,
              tensB.data.getD (k * tensA.shape.size + i) 0 := by
  exact (claim_C6_add_gradient tensA tensB).2.2.2.1 (by decide) (by decide) (by decide)

/-! Helper lemmas about `dotSlice`. -/

theorem dotSlice_length {α : Type} [Zero α] [Add α] [Mul α]
    (va vb : Nat → α) (d1 d2 d3 : Nat) :
    (dotSlice va vb d1 d2 d3).length = d1 * d3 := by
  rw [dotSlice, length_flatten_blocks _ d1 _ (fun j hj => by simp)]
  exact Nat.mul_comm d3 d1

theorem dotSlice_getD {α : Type} [AddCommMonoid α] [Mul α] (va vb : Nat → α)
    (d1 d2 d3 i k : Nat) (hi : i < d1) (hk : k < d3) :
    (dotSlice va vb d1 d2 d3).getD (k * d1 + i) 0
      = ∑ j ∈ Finset.range d2, va (i + j * d1) * vb (j + k * d2) := by
  rw [dotSlice, getD_flatten_blocks _ d1 _ k i 0 (fun j hj => by simp) hk hi,
    getD_map_range _ _ _ _ hi, foldl_add_range, zero_add]

theorem inner_index_lt (d1 d3 i k : Nat) (hi : i < d1) (hk : k < d3) :
    k * d1 + i < d1 * d3 :=
  calc k * d1 + i < k * d1 + d1 := by omega
    _ = (k + 1) * d1 := (Nat.succ_mul k d1).symm
    _ ≤ d3 * d1 := Nat.mul_le_mul_right _ hk
    _ = d1 * d3 := Nat.mul_comm _ _

/-- C5: `dot(a, b)` requires both non-batch ranks ≤ 2 and the second
dimension of `a` to equal the first dimension of `b`, signaling the shape-mismatch error
otherwise (also when both batch sizes exceed one and differ); under the
three-way batch dispatch each output batch slice has shape `d1 × d3` and
satisfies `result[i + k*d1] = Σ_j a[i + j*d1] * b[j + k*d2]` with the
scalar accumulator summed in increasing-`j` input order (the embedding
computes it as exactly that left fold; `dotSlice_getD` equates it to the
finite sum). -/
theorem claim_C5_dot {α : Type} [AddCommMonoid α] [Mul α] (a b : Tensor α) :
    (¬ (a.shape.dims.length ≤ 2 ∧ b.shape.dims.length ≤ 2 ∧
        a.shape.dim 1 = b.shape.dim 0) →
      CPUDevice.dot a b = .error .shapeMismatch) ∧
    ((a.shape.dims.length ≤ 2 ∧ b.shape.dims.length ≤ 2 ∧
        a.shape.dim 1 = b.shape.dim 0) →
      a.shape.batch_size ≠ b.shape.batch_size →
      a.shape.batch_size ≠ 1 → b.shape.batch_size ≠ 1 →
      CPUDevice.dot a b = .error .shapeMismatch) ∧
    ((a.shape.dims.length ≤ 2 ∧ b.shape.dims.length ≤ 2 ∧
        a.shape.dim 1 = b.shape.dim 0) →
      a.shape.batch_size = b.shape.batch_size →
      ∃ t, CPUDevice.dot a b = .ok t ∧
        t.shape = ⟨[a.shape.dim 0, b.shape.dim 1], a.shape.batch_size⟩ ∧
        t.data.length = a.shape.batch_size * (a.shape.dim 0 * b.shape.dim 1) ∧
        ∀ bi < a.shape.batch_size, ∀ i < a.shape.dim 0, ∀ k < b.shape.dim 1,
          t.data.getD (bi * (a.shape.dim 0 * b.shape.dim 1) + (k * a.shape.dim 0 + i)) 0
            = ∑ j ∈ Finset.range (a.shape.dim 1),
                a.data.getD (bi * (a.shape.dim 0 * a.shape.dim 1) + (i + j * a.shape.dim 0)) 0
                  * b.data.getD (bi * (a.shape.dim 1 * b.shape.dim 1) + (j + k * a.shape.dim 1)) 0) ∧
    ((a.shape.dims.length ≤ 2 ∧ b.shape.dims.length ≤ 2 ∧
        a.shape.dim 1 = b.shape.dim 0) →
      a.shape.batch_size = 1 → b.shape.batch_size ≠ 1 →
      ∃ t, CPUDevice.dot a b = .ok t ∧
        t.shape = ⟨[a.shape.dim 0, b.shape.dim 1], b.shape.batch_size⟩ ∧
        t.data.length = b.shape.batch_size * (a.shape.dim 0 * b.shape.dim 1) ∧
        ∀ bi < b.shape.batch_size, ∀ i < a.shape.dim 0, ∀ k < b.shape.dim 1,
          t.data.getD (bi * (a.shape.dim 0 * b.shape.dim 1) + (k * a.shape.dim 0 + i)) 0
            = ∑ j ∈ Finset.range (a.shape.dim 1),
                a.data.getD (i + j * a.shape.dim 0) 0
                  * b.data.getD (bi * (a.shape.dim 1 * b.shape.dim 1) + (j + k * a.shape.dim 1)) 0) ∧
    ((a.shape.dims.length ≤ 2 ∧ b.shape.dims.length ≤ 2 ∧
        a.shape.dim 1 = b.shape.dim 0) →
      b.shape.batch_size = 1 → a.shape.batch_size ≠ 1 →
      ∃ t, CPUDevice.dot a b = .ok t ∧
        t.shape = ⟨[a.shape.dim 0, b.shape.dim 1], a.shape.batch_size⟩ ∧
        t.data.length = a.shape.batch_size * (a.shape.dim 0 * b.shape.dim 1) ∧
        ∀ bi < a.shape.batch_size, ∀ i < a.shape.dim 0, ∀ k < b.shape.dim 1,
          t.data.getD (bi * (a.shape.dim 0 * b.shape.dim 1) + (k * a.shape.dim 0 + i)) 0
            = ∑ j ∈ Finset.range (a.shape.dim 1),
                a.data.getD (bi * (a.shape.dim 0 * a.shape.dim 1) + (i + j * a.shape.dim 0)) 0
                  * b.data.getD (j + k * a.shape.dim 1) 0) := by
  refine ⟨?_, ?_, ?_, ?_, ?_⟩
  · intro hg
    simp only [CPUDevice.dot, if_neg hg]
  · intro hg hne ha1 hb1
    simp [CPUDevice.dot, hg, hne, ha1, hb1]
  · intro hg hbs
    have heq : CPUDevice.dot a b = .ok ⟨⟨[a.shape.dim 0, b.shape.dim 1], a.shape.batch_size⟩,
        ((List.range a.shape.batch_size).map (fun bi =>
          dotSlice (fun t => a.data.getD (bi * (a.shape.dim 0 * a.shape.dim 1) + t) 0)
                   (fun t => b.data.getD (bi * (a.shape.dim 1 * b.shape.dim 1) + t) 0)
                   (a.shape.dim 0) (a.shape.dim 1) (b.shape.dim 1))).flatten⟩ := by
      simp [CPUDevice.dot, hg, hbs]
    refine ⟨_, heq, rfl, ?_, ?_⟩
    · rw [length_flatten_blocks _ (a.shape.dim 0 * b.shape.dim 1) _
        (fun j hj => dotSlice_length _ _ _ _ _)]
    · intro bi hbi i hi k hk
      rw [getD_flatten_blocks _ (a.shape.dim 0 * b.shape.dim 1) _ bi (k * a.shape.dim 0 + i) 0
        (fun j hj => dotSlice_length _ _ _ _ _) hbi
        (inner_index_lt _ _ _ _ hi hk)]
      exact dotSlice_getD _ _ _ _ _ _ _ hi hk
  · intro hg ha1 hb1
    have hne : a.shape.batch_size ≠ b.shape.batch_size := by omega
    have hne1 : (1 : Nat) ≠ b.shape.batch_size := by omega
    have heq : CPUDevice.dot a b = .ok ⟨⟨[a.shape.dim 0, b.shape.dim 1], b.shape.batch_size⟩,
        ((List.range b.shape.batch_size).map (fun bi =>
          dotSlice (fun t => a.data.getD t 0)
                   (fun t => b.data.getD (bi * (a.shape.dim 1 * b.shape.dim 1) + t) 0)
                   (a.shape.dim 0) (a.shape.dim 1) (b.shape.dim 1))).flatten⟩ := by
      simp [CPUDevice.dot, hg, hne, hne1, ha1]
    refine ⟨_, heq, rfl, ?_, ?_⟩
    · rw [length_flatten_blocks _ (a.shape.dim 0 * b.shape.dim 1) _
        (fun j hj => dotSlice_length _ _ _ _ _)]
    · intro bi hbi i hi k hk
      rw [getD_flatten_blocks _ (a.shape.dim 0 * b.shape.dim 1) _ bi (k * a.shape.dim 0 + i) 0
        (fun j hj => dotSlice_length _ _ _ _ _) hbi
        (inner_index_lt _ _ _ _ hi hk)]
      exact dotSlice_getD _ _ _ _ _ _ _ hi hk
  · intro hg hb1 ha1
    have hne : a.shape.batch_size ≠ b.shape.batch_size := by omega
    have heq : CPUDevice.dot a b = .ok ⟨⟨[a.shape.dim 0, b.shape.dim 1], a.shape.batch_size⟩,
        ((List.range a.shape.batch_size).map (fun bi =>
          dotSlice (fun t => a.data.getD (bi * (a.shape.dim 0 * a.shape.dim 1) + t) 0)
                   (fun t => b.data.getD t 0)
                   (a.shape.dim 0) (a.shape.dim 1) (b.shape.dim 1))).flatten⟩ := by
      simp [CPUDevice.dot, hg, hne, ha1, hb1]
    refine ⟨_, heq, rfl, ?_, ?_⟩
    · rw [length_flatten_blocks _ (a.shape.dim 0 * b.shape.dim 1) _
        (fun j hj => dotSlice_length _ _ _ _ _)]
    · intro bi hbi i hi k hk
      rw [getD_flatten_blocks _ (a.shape.dim 0 * b.shape.dim 1) _ bi (k * a.shape.dim 0 + i) 0
        (fun j hj => dotSlice_length _ _ _ _ _) hbi
        (inner_index_lt _ _ _ _ hi hk)]
      exact dotSlice_getD _ _ _ _ _ _ _ hi hk

/-- Witness for C5: the 2×3 matrix `tensA` times the 3×2 matrix `tensE`
satisfies the summation formula for every output entry. -/
theorem claim_C5_dot_witness :
    ∃ t, CPUDevice.dot tensA tensE = .ok t ∧
      t.shape = ⟨[tensA.shape.dim 0, tensE.shape.dim 1], tensA.shape.batch_size⟩ ∧
      t.data.length
        = tensA.shape.batch_size * (tensA.shape.dim 0 * tensE.shape.dim 1) ∧
      ∀ bi < tensA.shape.batch_size, ∀ i < tensA.shape.dim 0, ∀ k < tensE.shape.dim 1,
        t.data.getD
            (bi * (tensA.shape.dim 0 * tensE.shape.dim 1)
              + (k * tensA.shape.dim 0 + i)) 0
          = ∑ j ∈ Finset.range (tensA.shape.dim 1),
              tensA.data.getD
                  (bi * (tensA.shape.dim 0 * tensA.shape.dim 1)
                    + (i + j * tensA.shape.dim 0)) 0
                * tensE.data.getD
                  (bi * (tensA.shape.dim 1 * tensE.shape.dim 1)
                    + (j + k * tensA.shape.dim 1)) 0 := by
  exact (claim_C5_dot tensA tensE).2.2.1 (by decide) (by decide)

/-- C8: tearing down a device that still tracks live blocks takes the
fatal path and reports every leaked block with its pointer and size, a
device tracking no blocks tears down cleanly, and a fresh device that
allocated exactly one tensor without deleting it reports exactly that one
block. -/
theorem claim_C8_leak_teardown (d : CPUDevice) :
    (d.blocks = [] → d.destructor_report = none) ∧
    (d.blocks ≠ [] → d.destructor_report = some d.blocks) ∧
    (∀ s : Shape, d.blocks = [] →
      ((d.new_tensor s).1).destructor_report
        = some [((d.new_tensor s).2.1, 4 * s.size)]) := by
  refine ⟨?_, ?_, ?_⟩
  · intro h
    simp [CPUDevice.destructor_report, h]
  · intro h
    simp [CPUDevice.destructor_report, h]
  · intro s h
    simp [CPUDevice.destructor_report, CPUDevice.new_tensor, h]

/-- Witness for C8: the fresh device `devA` allocates one tensor for a
2×3 shape and its teardown reports exactly that block (pointer 0, 24
bytes); `devA` itself tears down cleanly. -/
theorem claim_C8_leak_teardown_witness :
    devA.destructor_report = none ∧
    ((devA.new_tensor ⟨[2, 3], 1⟩).1).destructor_report
      = some [((devA.new_tensor ⟨[2, 3], 1⟩).2.1, 4 * (⟨[2, 3], 1⟩ : Shape).size)] := by
  exact ⟨(claim_C8_leak_teardown devA).1 (by decide),
    (claim_C8_leak_teardown devA).2.2 ⟨[2, 3], 1⟩ (by decide)⟩

/-- Counterexample for C9: with `lower = upper = 0`, a sampled `0` is
remapped to `upper = 0`, so the output does contain a value exactly equal
to `lower` — the claim fails for the degenerate pair `(0, 0)`. -/
theorem claim_C9_counterexample :
    (0 : ℚ) ∈ (CPUDevice.random_uniform (⟨[1], 1⟩ : Shape)
      ([0] : List ℚ) 0 0).data := by
  decide

/-- C9 (amended): every element is the corresponding sample, remapped to
`upper` when it equals `lower` exactly; consequently, whenever
`lower ≠ upper`, no element of the output ever equals `lower`. -/
theorem claim_C9_random_uniform_remap {α : Type} [Zero α] [DecidableEq α]
    (shape : Shape) (samples : List α) (lower upper : α) :
    (∀ i < shape.size,
      (CPUDevice.random_uniform shape samples lower upper).data.getD i 0
        = if samples.getD i 0 = lower then upper else samples.getD i 0) ∧
    (lower ≠ upper →
      ∀ x ∈ (CPUDevice.random_uniform shape samples lower upper).data,
        x ≠ lower) := by
  constructor
  · intro i hi
    exact getD_map_range _ _ _ _ hi
  · intro hne x hmem
    simp only [CPUDevice.random_uniform, List.mem_map] at hmem
    obtain ⟨i, _, hx⟩ := hmem
    by_cases hs : samples.getD i 0 = lower
    · rw [← hx, if_pos hs]
      exact fun h => hne h.symm
    · rw [← hx, if_neg hs]
      exact hs

/-- Witness for C9 (amended): with samples `[0, 1/2]` on `(0, 1]` the
first element is remapped to `1` and no element equals the lower bound
`0`. -/
theorem claim_C9_random_uniform_remap_witness :
    ((CPUDevice.random_uniform (⟨[2], 1⟩ : Shape)
        ([0, 1/2] : List ℚ) 0 1).data.getD 0 0
      = if ([0, (1 : ℚ)/2] : List ℚ).getD 0 0 = 0 then 1
        else ([0, (1 : ℚ)/2] : List ℚ).getD 0 0) ∧
    (∀ x ∈ (CPUDevice.random_uniform (⟨[2], 1⟩ : Shape)
        ([0, 1/2] : List ℚ) 0 1).data, x ≠ 0) := by
  exact ⟨(claim_C9_random_uniform_remap (⟨[2], 1⟩ : Shape)
      ([0, 1/2] : List ℚ) 0 1).1 0 (by decide),
    (claim_C9_random_uniform_remap (⟨[2], 1⟩ : Shape)
      ([0, 1/2] : List ℚ) 0 1).2 (by decide)⟩

/-- C10: `new_tensor(shape, values)` with a wrong-length value list
signals the data-size-mismatch error only after the new block has been
allocated and registered, so the device still tracks one extra block
after the failed call. -/
theorem claim_C10_new_tensor_values_not_atomic {α : Type}
    (d : CPUDevice) (s : Shape) (values : List α)
    (h : values.length ≠ s.size) :
    (d.new_tensor_values s values).2 = .error .dataSizeMismatch ∧
    ((d.new_tensor_values s values).1).blocks
      = (d.next_ptr, 4 * s.size) :: d.blocks ∧
    ((d.new_tensor_values s values).1).blocks.length = d.blocks.length + 1 := by
  refine ⟨?_, ?_, ?_⟩ <;>
    simp [CPUDevice.new_tensor_values, CPUDevice.new_tensor,
      CPUDevice.reset_tensor_values, h]

/-- Witness for C10: on the fresh device `devA`, initialising a 2-element
shape from a 1-element list fails with the data-size-mismatch error while
the block count still grows from 0 to 1. -/
theorem claim_C10_new_tensor_values_not_atomic_witness :
    (devA.new_tensor_values ⟨[2], 1⟩ ([1] : List ℚ)).2
        = .error .dataSizeMismatch ∧
    ((devA.new_tensor_values ⟨[2], 1⟩ ([1] : List ℚ)).1).blocks
        = (devA.next_ptr, 4 * (⟨[2], 1⟩ : Shape).size) :: devA.blocks ∧
    ((devA.new_tensor_values ⟨[2], 1⟩ ([1] : List ℚ)).1).blocks.length
        = devA.blocks.length + 1 := by
  exact claim_C10_new_tensor_values_not_atomic devA ⟨[2], 1⟩ ([1] : List ℚ)
    (by decide)

end Primitiv
